import Mathlib

/-!
Verification of `bin/translate_taxids.py`: label resolution for taxonomy
tables and numeric-header translation of sample tables.

A taxonomy row is modelled as an ordered association list from column name
to cell, where a cell is `Option String` (`none` models a pandas NaN /
missing value, `some s` a string value read with `dtype=str`).  The
accessor returned by `build_row_accessor` is modelled by `rowGet`, whose
outer `Option` distinguishes "column absent" (`none`, the Python accessor
returning `None`) from a present cell.

Python string primitives (`str.strip`, `str.lower`, `str.isdigit`,
substring membership) are modelled character-wise over `String.data` so
that every definition evaluates inside the kernel.
-/

set_option autoImplicit false

namespace TranslateTaxids

/-- Python `str.strip()`: drop leading and trailing whitespace. -/
def pyStrip (s : String) : String :=
  ⟨((s.data.dropWhile Char.isWhitespace).reverse.dropWhile Char.isWhitespace).reverse⟩

/-- Python `str.lower()` (ASCII case folding). -/
def pyLower (s : String) : String := ⟨s.data.map Char.toLower⟩

/-- Python `str.isdigit()` (ASCII digits): non-empty and all digits. -/
def pyIsDigit (s : String) : Bool := !s.data.isEmpty && s.data.all Char.isDigit

/-- Does a character list start with the given pattern? -/
def startsWithL : List Char → List Char → Bool
  | _, [] => true
  | [], _ :: _ => false
  | a :: as, b :: bs => a == b && startsWithL as bs

/-- Does a character list contain the pattern as a contiguous run? -/
def containsL : List Char → List Char → Bool
  | [], pat => pat.isEmpty
  | a :: as, pat => startsWithL (a :: as) pat || containsL as pat

/-- Python `pat in s` substring membership. -/
def containsSub (s pat : String) : Bool := containsL s.data pat.data

/-- A cell of a table read with `dtype=str`: `none` is NaN. -/
abbrev Cell := Option String

/-- One taxonomy row after `set_index`: ordered (column name, cell) pairs,
mirroring `row.index` / `row[k]` of a pandas Series. -/
abbrev Row := List (String × Cell)

/-- `str(k).strip().lower()`, the normalization applied to column names in
`build_row_accessor` and `find_tax_id_col`. -/
def normKey (s : String) : String := pyLower (pyStrip s)

/-- `RANK_PRIORITY` from the script: preferred rank order, best label first. -/
def RANK_PRIORITY : List String :=
  ["subspecies", "species", "species subgroup", "species group", "genus",
   "family", "order", "class", "phylum", "clade", "superkingdom", "kingdom",
   "domain"]

/-- `ALIASES` from the script: column-name aliases per rank. -/
def ALIASES : List (String × List String) :=
  [("superkingdom", ["superkingdom", "domain", "kingdom", "superkingdom_name"]),
   ("phylum", ["phylum", "phylum_name"]),
   ("class", ["class", "class_name"]),
   ("order", ["order", "order_name"]),
   ("family", ["family", "family_name"]),
   ("genus", ["genus", "genus_name"]),
   ("species", ["species", "species_name", "scientific_name", "name", "organism_name"]),
   ("subspecies", ["subspecies", "subspecies_name"]),
   ("species subgroup", ["species subgroup", "species_subgroup", "species_subgroup_name"]),
   ("species group", ["species group", "species_group", "species_group_name"]),
   ("clade", ["clade", "clade_name"]),
   ("kingdom", ["kingdom", "kingdom_name"]),
   ("domain", ["domain", "domain_name", "superkingdom"])]

/-- `ALIASES.get(rank, [rank])`. -/
def aliasesFor (rank : String) : List String :=
  match ALIASES.lookup rank with
  | some l => l
  | none => [rank]

/-- The normalized-name index of `build_row_accessor`:
`mapping = {str(k).strip().lower(): k for k in row.index}`.  A Python dict
comprehension lets later keys overwrite earlier ones, which this left fold
reproduces: the result is the last original key whose normalization matches. -/
def accessorKey (keys : List String) (q : String) : Option String :=
  keys.foldl (fun acc k => if normKey k = normKey q then some k else acc) none

/-- `row[k]` for an original key `k`: first pair with that exact key
(pandas labels coming out of `read_csv` are unique within a row). -/
def rowValue (row : Row) (k : String) : Option Cell :=
  (row.find? (fun p => p.1 == k)).map Prod.snd

/-- The accessor `get(colname)` returned by `build_row_accessor`:
`none` when the normalized name is not indexed (Python returns `None`),
otherwise the cell at the matched original key. -/
def rowGet (row : Row) (colname : String) : Option Cell :=
  match accessorKey (row.map Prod.fst) colname with
  | some k => rowValue row k
  | none => none

/-- The per-candidate test inside `get_best_tax_label`: skip a `None`
accessor result, skip NaN (`pd.notna`), skip values blank after `strip()`;
otherwise produce the stripped value. -/
def usableValue : Option Cell → Option String
  | some (some s) => if pyStrip s = "" then none else some (pyStrip s)
  | _ => none

/-- The inner loop of `get_best_tax_label`: first usable candidate wins. -/
def bestInAliases (row : Row) : List String → Option String
  | [] => none
  | c :: cs =>
    match usableValue (rowGet row c) with
    | some s => some s
    | none => bestInAliases row cs

/-- The outer loop of `get_best_tax_label` over a rank list. -/
def bestOverRanks (row : Row) : List String → Option String
  | [] => none
  | r :: rs =>
    match bestInAliases row (aliasesFor r) with
    | some s => some s
    | none => bestOverRanks row rs

/-- `get_best_tax_label(row)`. -/
def get_best_tax_label (row : Row) : String :=
  (bestOverRanks row RANK_PRIORITY).getD "Unknown"

/-- The exact-spelling test of `find_tax_id_col`. -/
def isTaxIdSpelling (c : String) : Bool :=
  normKey c == "tax_id" || normKey c == "taxid" ||
  normKey c == "tax id" || normKey c == "tax-id"

/-- `find_tax_id_col`: first column with an accepted spelling, else the
first column when its normalized name contains both "tax" and "id". -/
def find_tax_id_col (cols : List String) : Option String :=
  match cols.filter isTaxIdSpelling with
  | c :: _ => some c
  | [] =>
    match cols with
    | [] => none
    | c0 :: _ =>
      if containsSub (normKey c0) "tax" && containsSub (normKey c0) "id" then some c0
      else none

/-- A Python dict with string keys and values, as its ordered entry list. -/
abbrev Dict := List (String × String)

/-- `d[k]` / `k in d` on a Python dict: the value at the unique entry
holding key `k`. -/
def dictLookup : Dict → String → Option String
  | [], _ => none
  | p :: m, k => if p.1 = k then some p.2 else dictLookup m k

/-- `d[k] = v` on a Python dict: update in place when the key exists,
append otherwise (insertion order preserved). -/
def dictInsert (m : Dict) (k v : String) : Dict :=
  if (dictLookup m k).isSome then m.map (fun p => if p.1 = k then (k, v) else p)
  else m ++ [(k, v)]

/-- The map-building loop of `main`, started from an accumulator:
`tid = str(tax_id).strip()`; empty identifiers are skipped; otherwise
`tax_id_to_label[tid] = get_best_tax_label(row)`. -/
def buildMapFrom (m : Dict) : List (String × Row) → Dict
  | [] => m
  | t :: ts =>
    buildMapFrom
      (if pyStrip t.1 = "" then m else dictInsert m (pyStrip t.1) (get_best_tax_label t.2)) ts

/-- The built translation map `tax_id_to_label`. -/
def build_map (tbl : List (String × Row)) : Dict := buildMapFrom [] tbl

/-- The per-header branch of `main`: translate a header iff its stripped
form is a digit string that is a key of the map. -/
def translateHeader (m : Dict) (col : String) : String :=
  let c := pyStrip col
  if pyIsDigit c && (dictLookup m c).isSome then (dictLookup m c).getD col else col

/-- The header-translation loop of `main`. -/
def translate_headers (m : Dict) (cols : List String) : List String :=
  cols.map (translateHeader m)

/-- A parsed tab-separated table: header tokens and rows of cells. -/
structure Table where
  header : List String
  rows : List (List Cell)
deriving DecidableEq

/-- `str(tax_id)` on an index value: NaN prints as "nan". -/
def pyStr (c : Cell) : String := c.getD "nan"

/-- `taxonomy_df.set_index(tax_id_col)` followed by `iterrows()`: each row
becomes its identifier (the cell in column `i`) and the remaining
(column, cell) pairs. -/
def setIndexRows (header : List String) (i : Nat) (rows : List (List Cell)) :
    List (String × Row) :=
  rows.map (fun r => (pyStr (r.getD i none), (header.zip r).eraseIdx i))

/-- The observable outcome of one `main` run on readable inputs. -/
structure MainResult where
  output : Table
  warned : Bool
  success : Bool
deriving DecidableEq

/-- `main` after both tables are read: normalize taxonomy column names
(`normalize_cols` strips them); if no tax-id column is found, write the
sample table unchanged with a warning; otherwise build the translation map
and rewrite the headers. -/
def main_model (sample tax : Table) : MainResult :=
  let taxHeader := tax.header.map pyStrip
  match find_tax_id_col taxHeader with
  | none => { output := sample, warned := true, success := true }
  | some c =>
    let i := taxHeader.findIdx (fun x => x == c)
    let m := build_map (setIndexRows taxHeader i tax.rows)
    { output := { header := translate_headers m sample.header, rows := sample.rows },
      warned := false, success := true }

/-- Concrete taxonomy table used to witness the map invariant. -/
def tblC1 : List (String × Row) :=
  [("561530", [("species", some "Escherichia coli")]), (" ", [("genus", some "X")])]

/-- A row populating both the subspecies and the species rank. -/
def rowC2 : Row :=
  [("subspecies", some "Canis lupus familiaris"), ("species", some "Canis lupus")]

/-- A row whose species value comes from the alias "species_name", with
higher-rank fields populated too. -/
def rowC2W : Row :=
  [("species_name", some " Canis lupus "), ("genus", some "Canis"), ("family", some "Canidae")]

/-- A row populating two genus aliases with different values and also the
species rank. -/
def rowC7 : Row :=
  [("species", some "Homo sapiens"), ("genus", some "Homo"), ("genus_name", some "Homo2")]

/-- A row populating only the two genus aliases, with different values. -/
def rowC7W : Row := [("genus", some " Homo "), ("genus_name", some "HomoG")]

/-- A row with two columns that differ only by case and whitespace. -/
def rowC8 : Row := [("Species", some "Alpha"), (" species ", some "Beta")]

/-- A one-entry translation map. -/
def mC4 : Dict := [("12", "Escherichia coli")]

/-- A one-entry translation map with a realistic identifier. -/
def mC10 : Dict := [("561530", "Escherichia coli")]

example : get_best_tax_label [("species", some "  Escherichia coli "), ("genus", some "Escherichia")] = "Escherichia coli" := by decide

example : get_best_tax_label [("species", some " "), ("genus", none)] = "Unknown" := by decide

example : get_best_tax_label [("subspecies", some "A"), ("species", some "B")] = "A" := by decide

example : find_tax_id_col ["Tax_ID", "species"] = some "Tax_ID" := by decide

example : find_tax_id_col ["taxonomy_identifier", "species"] = some "taxonomy_identifier" := by decide

example : find_tax_id_col ["species", "genus"] = none := by decide

example : translateHeader [("12", "Ecoli")] " 12 " = "Ecoli" := by decide

example : translateHeader [("12", "Ecoli")] "13" = "13" := by decide

example : rowGet [("Species", some "A"), (" species ", some "B")] "species" = some (some "B") := by decide

/-! ### Helper lemmas about the label selector -/

theorem usableValue_ne_empty (o : Option Cell) (s : String) (h : usableValue o = some s) :
    s ≠ "" := by
  match o with
  | none => simp [usableValue] at h
  | some none => simp [usableValue] at h
  | some (some t) =>
    unfold usableValue at h
    by_cases ht : pyStrip t = ""
    · simp [ht] at h
    · simp [ht] at h
      exact h ▸ ht

theorem bestInAliases_ne_empty (row : Row) (l : List String) (s : String)
    (h : bestInAliases row l = some s) : s ≠ "" := by
  induction l with
  | nil => simp [bestInAliases] at h
  | cons c cs ih =>
    unfold bestInAliases at h
    cases hu : usableValue (rowGet row c) with
    | none => rw [hu] at h; exact ih h
    | some t =>
      rw [hu] at h
      cases h
      exact usableValue_ne_empty _ _ hu

theorem bestOverRanks_ne_empty (row : Row) (l : List String) (s : String)
    (h : bestOverRanks row l = some s) : s ≠ "" := by
  induction l with
  | nil => simp [bestOverRanks] at h
  | cons r rs ih =>
    unfold bestOverRanks at h
    cases hb : bestInAliases row (aliasesFor r) with
    | none => rw [hb] at h; exact ih h
    | some t =>
      rw [hb] at h
      cases h
      exact bestInAliases_ne_empty _ _ _ hb

theorem get_best_tax_label_ne_empty (row : Row) : get_best_tax_label row ≠ "" := by
  unfold get_best_tax_label
  cases hb : bestOverRanks row RANK_PRIORITY with
  | none => decide
  | some s => simpa using bestOverRanks_ne_empty _ _ _ hb

theorem bestInAliases_cons (row : Row) (c : String) (cs : List String) :
    bestInAliases row (c :: cs) =
      match usableValue (rowGet row c) with
      | some s => some s
      | none => bestInAliases row cs := rfl

theorem bestOverRanks_cons (row : Row) (r : String) (rs : List String) :
    bestOverRanks row (r :: rs) =
      match bestInAliases row (aliasesFor r) with
      | some s => some s
      | none => bestOverRanks row rs := rfl

theorem bestInAliases_append_of_none (row : Row) (l1 l2 : List String)
    (h : ∀ a ∈ l1, usableValue (rowGet row a) = none) :
    bestInAliases row (l1 ++ l2) = bestInAliases row l2 := by
  induction l1 with
  | nil => rfl
  | cons c cs ih =>
    have hc : usableValue (rowGet row c) = none := h c (by simp)
    have hcs : ∀ a ∈ cs, usableValue (rowGet row a) = none := fun a ha => h a (by simp [ha])
    rw [List.cons_append, bestInAliases_cons, hc]
    exact ih hcs

theorem bestInAliases_eq_none (row : Row) (l : List String)
    (h : ∀ a ∈ l, usableValue (rowGet row a) = none) : bestInAliases row l = none := by
  have := bestInAliases_append_of_none row l [] h
  simpa using this

theorem bestInAliases_first_usable (row : Row) (pre : List String) (a : String)
    (post : List String) (v : String)
    (hpre : ∀ b ∈ pre, usableValue (rowGet row b) = none)
    (ha : usableValue (rowGet row a) = some v) :
    bestInAliases row (pre ++ a :: post) = some v := by
  rw [bestInAliases_append_of_none row pre _ hpre, bestInAliases_cons, ha]

theorem bestOverRanks_append_of_none (row : Row) (l1 l2 : List String)
    (h : ∀ r ∈ l1, bestInAliases row (aliasesFor r) = none) :
    bestOverRanks row (l1 ++ l2) = bestOverRanks row l2 := by
  induction l1 with
  | nil => rfl
  | cons r rs ih =>
    have hr : bestInAliases row (aliasesFor r) = none := h r (by simp)
    have hrs : ∀ x ∈ rs, bestInAliases row (aliasesFor x) = none := fun x hx => h x (by simp [hx])
    rw [List.cons_append, bestOverRanks_cons, hr]
    exact ih hrs

theorem bestOverRanks_eq_none (row : Row) (l : List String)
    (h : ∀ r ∈ l, bestInAliases row (aliasesFor r) = none) : bestOverRanks row l = none := by
  have := bestOverRanks_append_of_none row l [] h
  simpa using this

/-! ### Helper lemmas about the Python dict model -/

theorem dictLookup_nil (k : String) : dictLookup [] k = none := rfl

theorem dictLookup_cons (p : String × String) (m : Dict) (k : String) :
    dictLookup (p :: m) k = if p.1 = k then some p.2 else dictLookup m k := rfl

theorem dictLookup_eq_none_iff (m : Dict) (k : String) :
    dictLookup m k = none ↔ ∀ p ∈ m, ¬ p.1 = k := by
  induction m with
  | nil => simp [dictLookup_nil]
  | cons a t ih =>
    by_cases ha : a.1 = k <;> simp [dictLookup_cons, ha, ih]

theorem dictLookup_map_update_self (t : Dict) (k v : String)
    (hmem : (dictLookup t k).isSome = true) :
    dictLookup (t.map (fun p => if p.1 = k then (k, v) else p)) k = some v := by
  induction t with
  | nil => simp [dictLookup_nil] at hmem
  | cons a t ih =>
    by_cases ha : a.1 = k
    · simp [dictLookup_cons, ha]
    · have ht : (dictLookup t k).isSome = true := by
        simpa [dictLookup_cons, ha] using hmem
      simp [dictLookup_cons, ha, ih ht]

theorem dictLookup_append_self (m : Dict) (k v : String)
    (hmem : ∀ p ∈ m, ¬ p.1 = k) :
    dictLookup (m ++ [(k, v)]) k = some v := by
  induction m with
  | nil => simp [dictLookup_cons]
  | cons a t ih =>
    have ha : ¬ a.1 = k := hmem a (by simp)
    simp [dictLookup_cons, ha, ih (fun p hp => hmem p (by simp [hp]))]

theorem dictLookup_insert_self (m : Dict) (k v : String) :
    dictLookup (dictInsert m k v) k = some v := by
  unfold dictInsert
  by_cases hmem : (dictLookup m k).isSome = true
  · rw [if_pos hmem]
    exact dictLookup_map_update_self m k v hmem
  · rw [if_neg hmem]
    refine dictLookup_append_self m k v (fun p hp hpk => ?_)
    have : dictLookup m k = none := by
      cases hl : dictLookup m k with
      | none => rfl
      | some w => rw [hl] at hmem; simp at hmem
    exact (dictLookup_eq_none_iff m k).mp this p hp hpk

theorem dictLookup_map_update_ne (t : Dict) (k v q : String) (h : ¬ q = k) :
    dictLookup (t.map (fun p => if p.1 = k then (k, v) else p)) q = dictLookup t q := by
  induction t with
  | nil => rfl
  | cons a t ih =>
    by_cases ha : a.1 = k
    · have hkq : ¬ k = q := fun hh => h hh.symm
      simp [dictLookup_cons, ha, hkq, ih]
    · by_cases haq : a.1 = q <;> simp [dictLookup_cons, ha, haq, ih, h]

theorem dictLookup_append_ne (m : Dict) (k v q : String) (h : ¬ q = k) :
    dictLookup (m ++ [(k, v)]) q = dictLookup m q := by
  induction m with
  | nil =>
    have hkq : ¬ k = q := fun hh => h hh.symm
    simp [dictLookup_cons, dictLookup_nil, hkq]
  | cons a t ih =>
    by_cases haq : a.1 = q <;> simp [dictLookup_cons, haq, ih]

theorem dictLookup_insert_ne (m : Dict) (k v q : String) (h : q ≠ k) :
    dictLookup (dictInsert m k v) q = dictLookup m q := by
  unfold dictInsert
  by_cases hmem : (dictLookup m k).isSome = true
  · rw [if_pos hmem]
    exact dictLookup_map_update_ne m k v q h
  · rw [if_neg hmem]
    exact dictLookup_append_ne m k v q h

theorem dictInsert_keys_of_mem (m : Dict) (k v : String)
    (hmem : (dictLookup m k).isSome = true) :
    (dictInsert m k v).map Prod.fst = m.map Prod.fst := by
  unfold dictInsert
  rw [if_pos hmem]
  rw [List.map_map]
  apply List.map_congr_left
  intro p _
  by_cases hp : p.1 = k <;> simp [hp]

theorem dictInsert_keys_of_not_mem (m : Dict) (k v : String)
    (hmem : ¬ (dictLookup m k).isSome = true) :
    (dictInsert m k v).map Prod.fst = m.map Prod.fst ++ [k] := by
  unfold dictInsert
  rw [if_neg hmem]
  simp

theorem dictLookup_eq_none_of_not_isSome (m : Dict) (k : String)
    (hmem : ¬ (dictLookup m k).isSome = true) : dictLookup m k = none := by
  cases hl : dictLookup m k with
  | none => rfl
  | some w => rw [hl] at hmem; simp at hmem

theorem dictInsert_keys_nodup (m : Dict) (k v : String)
    (h : (m.map Prod.fst).Nodup) : ((dictInsert m k v).map Prod.fst).Nodup := by
  by_cases hmem : (dictLookup m k).isSome = true
  · rw [dictInsert_keys_of_mem m k v hmem]; exact h
  · rw [dictInsert_keys_of_not_mem m k v hmem]
    have hk : k ∉ m.map Prod.fst := by
      intro hk
      rcases List.mem_map.mp hk with ⟨p, hp, hpk⟩
      exact (dictLookup_eq_none_iff m k).mp
        (dictLookup_eq_none_of_not_isSome m k hmem) p hp hpk
    refine List.nodup_append.mpr ⟨h, List.nodup_singleton k, fun x hx hx2 => ?_⟩
    rw [List.mem_singleton] at hx2
    exact hk (hx2 ▸ hx)

theorem dictInsert_vals (m : Dict) (k v : String) (P : String → Prop)
    (hm : ∀ p ∈ m, P p.2) (hv : P v) : ∀ p ∈ dictInsert m k v, P p.2 := by
  intro p hp
  unfold dictInsert at hp
  by_cases hmem : (dictLookup m k).isSome = true
  · rw [if_pos hmem] at hp
    rcases List.mem_map.mp hp with ⟨q, hq, hqp⟩
    by_cases hqk : q.1 = k
    · simp [hqk] at hqp; rw [← hqp]; exact hv
    · simp [hqk] at hqp; rw [← hqp]; exact hm q hq
  · rw [if_neg hmem] at hp
    rcases List.mem_append.mp hp with hp | hp
    · exact hm p hp
    · rw [List.mem_singleton] at hp
      subst hp
      exact hv

theorem dictLookup_isSome_insert (m : Dict) (k v q : String)
    (h : (dictLookup m q).isSome = true) :
    (dictLookup (dictInsert m k v) q).isSome = true := by
  by_cases hq : q = k
  · rw [hq, dictLookup_insert_self]; rfl
  · rw [dictLookup_insert_ne m k v q hq]; exact h

theorem dictLookup_mem (m : Dict) (k v : String) (h : dictLookup m k = some v) :
    (k, v) ∈ m := by
  induction m with
  | nil => simp [dictLookup_nil] at h
  | cons a t ih =>
    rw [dictLookup_cons] at h
    by_cases ha : a.1 = k
    · rw [if_pos ha] at h
      simp only [Option.some.injEq] at h
      rw [List.mem_cons]
      left
      rw [← ha, ← h]
    · rw [if_neg ha] at h
      exact List.mem_cons.mpr (Or.inr (ih h))

theorem countP_key_eq_one (m : Dict) (k : String)
    (hnd : (m.map Prod.fst).Nodup) (hmem : k ∈ m.map Prod.fst) :
    m.countP (fun p => p.1 == k) = 1 := by
  induction m with
  | nil => simp at hmem
  | cons a t ih =>
    simp only [List.map_cons, List.nodup_cons] at hnd
    by_cases ha : a.1 = k
    · have hz : t.countP (fun p => p.1 == k) = 0 := by
        apply List.countP_eq_zero.mpr
        intro p hp
        simp only [beq_iff_eq]
        intro hpk
        exact hnd.1 (ha ▸ hpk ▸ List.mem_map_of_mem Prod.fst hp)
      simp [List.countP_cons, ha, hz]
    · have hmt : k ∈ t.map Prod.fst := by
        simp only [List.map_cons, List.mem_cons] at hmem
        rcases hmem with h | h
        · exact absurd h.symm ha
        · exact h
      simp [List.countP_cons, ha, ih hnd.2 hmt]

/-! ### Helper lemmas about the map-building loop -/

theorem buildMapFrom_cons (m : Dict) (t : String × Row) (ts : List (String × Row)) :
    buildMapFrom m (t :: ts) =
      buildMapFrom
        (if pyStrip t.1 = "" then m else dictInsert m (pyStrip t.1) (get_best_tax_label t.2))
        ts := rfl

theorem buildMapFrom_append (m : Dict) (l1 l2 : List (String × Row)) :
    buildMapFrom m (l1 ++ l2) = buildMapFrom (buildMapFrom m l1) l2 := by
  induction l1 generalizing m with
  | nil => rfl
  | cons t ts ih =>
    rw [List.cons_append, buildMapFrom_cons, ih, buildMapFrom_cons]

theorem buildMapFrom_keys_nodup (ts : List (String × Row)) (m : Dict)
    (h : (m.map Prod.fst).Nodup) : ((buildMapFrom m ts).map Prod.fst).Nodup := by
  induction ts generalizing m with
  | nil => exact h
  | cons t ts ih =>
    rw [buildMapFrom_cons]
    by_cases ht : pyStrip t.1 = ""
    · rw [if_pos ht]; exact ih m h
    · rw [if_neg ht]; exact ih _ (dictInsert_keys_nodup _ _ _ h)

theorem buildMapFrom_vals (ts : List (String × Row)) (m : Dict)
    (h : ∀ p ∈ m, p.2 ≠ "") : ∀ p ∈ buildMapFrom m ts, p.2 ≠ "" := by
  induction ts generalizing m with
  | nil => exact h
  | cons t ts ih =>
    rw [buildMapFrom_cons]
    by_cases ht : pyStrip t.1 = ""
    · rw [if_pos ht]; exact ih m h
    · rw [if_neg ht]
      exact ih _ (dictInsert_vals m (pyStrip t.1) (get_best_tax_label t.2)
        (fun s => s ≠ "") h (get_best_tax_label_ne_empty t.2))

theorem buildMapFrom_isSome_mono (ts : List (String × Row)) (m : Dict) (k : String)
    (h : (dictLookup m k).isSome = true) :
    (dictLookup (buildMapFrom m ts) k).isSome = true := by
  induction ts generalizing m with
  | nil => exact h
  | cons t ts ih =>
    rw [buildMapFrom_cons]
    by_cases ht : pyStrip t.1 = ""
    · rw [if_pos ht]; exact ih m h
    · rw [if_neg ht]; exact ih _ (dictLookup_isSome_insert _ _ _ _ h)

theorem buildMapFrom_present (ts : List (String × Row)) (m : Dict) (tid : String) (row : Row)
    (hmem : (tid, row) ∈ ts) (hne : pyStrip tid ≠ "") :
    (dictLookup (buildMapFrom m ts) (pyStrip tid)).isSome = true := by
  induction ts generalizing m with
  | nil => simp at hmem
  | cons t ts ih =>
    rcases List.mem_cons.mp hmem with h | h
    · have h1 : t.1 = tid := by rw [← h]
      have h2 : t.2 = row := by rw [← h]
      rw [buildMapFrom_cons, h1, h2, if_neg hne]
      exact buildMapFrom_isSome_mono ts _ _
        (by rw [dictLookup_insert_self]; rfl)
    · rw [buildMapFrom_cons]
      by_cases ht : pyStrip t.1 = ""
      · rw [if_pos ht]; exact ih m h
      · rw [if_neg ht]; exact ih _ h

theorem buildMapFrom_lookup_of_absent (ts : List (String × Row)) (m : Dict) (k : String)
    (h : ∀ q ∈ ts, pyStrip q.1 ≠ k) :
    dictLookup (buildMapFrom m ts) k = dictLookup m k := by
  induction ts generalizing m with
  | nil => rfl
  | cons t ts ih =>
    have hts : ∀ q ∈ ts, pyStrip q.1 ≠ k := fun q hq => h q (by simp [hq])
    rw [buildMapFrom_cons]
    by_cases ht : pyStrip t.1 = ""
    · rw [if_pos ht]; exact ih _ hts
    · rw [if_neg ht, ih _ hts]
      exact dictLookup_insert_ne m _ _ k (fun hk => h t (by simp) hk.symm)

example :
    main_model ⟨["sample", "561530"], [[some "a", some "b"]]⟩
      ⟨["tax_id", "species", "genus"], [[some "561530", some "Escherichia coli", some "Escherichia"]]⟩ =
    ⟨⟨["sample", "Escherichia coli"], [[some "a", some "b"]]⟩, false, true⟩ := by decide

example :
    main_model ⟨["sample", "561530"], [[some "a", some "b"]]⟩
      ⟨["name", "species"], [[some "561530", some "Escherichia coli"]]⟩ =
    ⟨⟨["sample", "561530"], [[some "a", some "b"]]⟩, true, true⟩ := by decide

/-! ### Claims -/

/-- Claim C1: for every row of the taxonomy table whose identifier is
non-empty after trimming, the built translation map contains exactly one
entry for that identifier, and its value is a non-empty string. -/
theorem claim_C1 (tbl : List (String × Row)) (tid : String) (row : Row)
    (hmem : (tid, row) ∈ tbl) (hne : pyStrip tid ≠ "") :
    (build_map tbl).countP (fun p => p.1 == pyStrip tid) = 1 ∧
    ∃ v, dictLookup (build_map tbl) (pyStrip tid) = some v ∧ v ≠ "" := by
  have hsome : (dictLookup (build_map tbl) (pyStrip tid)).isSome = true :=
    buildMapFrom_present tbl [] tid row hmem hne
  obtain ⟨v, hv⟩ := Option.isSome_iff_exists.mp hsome
  refine ⟨?_, v, hv, ?_⟩
  · apply countP_key_eq_one
    · exact buildMapFrom_keys_nodup tbl [] (by simp)
    · exact List.mem_map_of_mem Prod.fst (dictLookup_mem _ _ _ hv)
  · exact buildMapFrom_vals tbl [] (by simp) _ (dictLookup_mem _ _ _ hv)

/-- Witness for C1 on a concrete two-row taxonomy table. -/
theorem claim_C1_witness :
    (build_map tblC1).countP (fun p => p.1 == pyStrip "561530") = 1 ∧
    ∃ v, dictLookup (build_map tblC1) (pyStrip "561530") = some v ∧ v ≠ "" :=
  claim_C1 tblC1 "561530" [("species", some "Escherichia coli")] (by decide) (by decide)

/-- Claim C2, counterexample: on a row that also populates the more
specific subspecies rank, `get_best_tax_label` does not return the
non-empty species-level value. -/
theorem claim_C2_counterexample :
    usableValue (rowGet rowC2 "species") = some "Canis lupus" ∧
    get_best_tax_label rowC2 ≠ "Canis lupus" := by decide

/-- Claim C2, amended: when no subspecies alias yields a usable value and
the species rank resolves (through its alias list) to `v`, the selector
returns `v`, whatever the higher-rank fields hold. -/
theorem claim_C2_amended (row : Row) (v : String)
    (hsub : bestInAliases row (aliasesFor "subspecies") = none)
    (hsp : bestInAliases row (aliasesFor "species") = some v) :
    get_best_tax_label row = v := by
  unfold get_best_tax_label
  have hsplit : RANK_PRIORITY = ["subspecies"] ++ "species" ::
      ["species subgroup", "species group", "genus", "family", "order", "class",
       "phylum", "clade", "superkingdom", "kingdom", "domain"] := rfl
  rw [hsplit,
    bestOverRanks_append_of_none row ["subspecies"] _ (fun r hr => by
      rw [List.mem_singleton] at hr
      rw [hr]
      exact hsub),
    bestOverRanks_cons, hsp]
  rfl

/-- Witness for the amended C2 on a row whose species value carries
whitespace and whose genus and family are populated. -/
theorem claim_C2_amended_witness : get_best_tax_label rowC2W = "Canis lupus" :=
  claim_C2_amended rowC2W "Canis lupus" (by decide) (by decide)

/-- Claim C3: a row whose every rank/alias field is missing, empty or
whitespace-only resolves to the sentinel "Unknown". -/
theorem claim_C3 (row : Row)
    (h : ∀ r ∈ RANK_PRIORITY, ∀ a ∈ aliasesFor r, usableValue (rowGet row a) = none) :
    get_best_tax_label row = "Unknown" := by
  unfold get_best_tax_label
  rw [bestOverRanks_eq_none row RANK_PRIORITY
    (fun r hr => bestInAliases_eq_none row _ (h r hr))]
  rfl

/-- Witness for C3: blank species cell, NaN genus cell, and a populated
non-rank column. -/
theorem claim_C3_witness :
    get_best_tax_label [("species", some "  "), ("genus", none), ("comment", some "keep")] =
      "Unknown" :=
  claim_C3 _ (by decide)

/-- Claim C4: a header token is replaced exactly when its stripped form is
a digit string present in the map; non-digit tokens and unmapped digit
tokens pass through unchanged. -/
theorem claim_C4 (m : Dict) (col : String) :
    (translateHeader m col ≠ col →
      pyIsDigit (pyStrip col) = true ∧ (dictLookup m (pyStrip col)).isSome = true) ∧
    (pyIsDigit (pyStrip col) = false → translateHeader m col = col) ∧
    (dictLookup m (pyStrip col) = none → translateHeader m col = col) ∧
    (∀ v, pyIsDigit (pyStrip col) = true → dictLookup m (pyStrip col) = some v →
      translateHeader m col = v) := by
  by_cases h1 : pyIsDigit (pyStrip col) = true
  · by_cases h2 : (dictLookup m (pyStrip col)).isSome = true
    · refine ⟨fun _ => ⟨h1, h2⟩, fun hf => ?_, fun hn => ?_, fun v _ hv => ?_⟩
      · simp [hf] at h1
      · simp [hn] at h2
      · simp [translateHeader, h1, hv]
    · have heq : translateHeader m col = col := by
        simp [translateHeader, h2]
      refine ⟨fun hne => absurd heq hne, fun _ => heq, fun _ => heq, fun v _ hv => ?_⟩
      rw [hv] at h2
      simp at h2
  · have heq : translateHeader m col = col := by
      simp [translateHeader, h1]
    exact ⟨fun hne => absurd heq hne, fun _ => heq, fun _ => heq,
      fun v hv _ => absurd hv h1⟩

/-- Witness for C4: mapped digit token replaced, unmapped digit token and
non-digit token unchanged. -/
theorem claim_C4_witness :
    translateHeader mC4 "12" = "Escherichia coli" ∧ translateHeader mC4 "99" = "99" ∧
    translateHeader mC4 "name" = "name" :=
  ⟨(claim_C4 mC4 "12").2.2.2 "Escherichia coli" (by decide) (by decide),
   (claim_C4 mC4 "99").2.2.1 (by decide),
   (claim_C4 mC4 "name").2.1 (by decide)⟩

/-- Claim C5: when no taxonomy column carries an accepted tax-id spelling
and the first-column heuristic fails, the run succeeds, warns, and leaves
the sample table untouched. -/
theorem claim_C5 (sample tax : Table)
    (h1 : ∀ c ∈ tax.header.map pyStrip, isTaxIdSpelling c = false)
    (h2 : ∀ c0 ∈ (tax.header.map pyStrip).head?,
      (containsSub (normKey c0) "tax" && containsSub (normKey c0) "id") = false) :
    main_model sample tax = { output := sample, warned := true, success := true } := by
  have hfind : find_tax_id_col (tax.header.map pyStrip) = none := by
    unfold find_tax_id_col
    have hfilter : (tax.header.map pyStrip).filter isTaxIdSpelling = [] :=
      List.filter_eq_nil_iff.mpr (fun c hc => by simp [h1 c hc])
    rw [hfilter]
    cases hh : tax.header.map pyStrip with
    | nil => rfl
    | cons c0 rest =>
      have hc0 := h2 c0 (by rw [hh]; rfl)
      simp [hc0]
  simp only [main_model]
  rw [hfind]

/-- Witness for C5: a taxonomy table headed "name", "genus". -/
theorem claim_C5_witness :
    main_model ⟨["sample", "99"], [[some "1"]]⟩ ⟨["name", "genus"], [[some "99", some "G"]]⟩ =
      { output := ⟨["sample", "99"], [[some "1"]]⟩, warned := true, success := true } :=
  claim_C5 ⟨["sample", "99"], [[some "1"]]⟩ ⟨["name", "genus"], [[some "99", some "G"]]⟩
    (by decide) (by decide)

/-- Specialization of the map-building step to a literal (identifier, row)
pair at the head of the remaining table. -/
theorem buildMapFrom_pair_cons (m : Dict) (tid : String) (row : Row)
    (ts : List (String × Row)) :
    buildMapFrom m ((tid, row) :: ts) =
      buildMapFrom
        (if pyStrip tid = "" then m else dictInsert m (pyStrip tid) (get_best_tax_label row))
        ts := rfl

/-- Claim C6: when the same trimmed identifier occurs in several taxonomy
rows, the built map holds the label of the last such row. -/
theorem claim_C6 (pre post : List (String × Row)) (tid : String) (row : Row)
    (hne : pyStrip tid ≠ "")
    (hlast : ∀ q ∈ post, pyStrip q.1 ≠ pyStrip tid) :
    dictLookup (build_map (pre ++ (tid, row) :: post)) (pyStrip tid) =
      some (get_best_tax_label row) := by
  unfold build_map
  rw [buildMapFrom_append, buildMapFrom_pair_cons, if_neg hne,
    buildMapFrom_lookup_of_absent post _ _ hlast, dictLookup_insert_self]

/-- Witness for C6: identifier "7" appears twice; the later row wins. -/
theorem claim_C6_witness :
    dictLookup (build_map [("7", [("species", some "Old")]), ("7", [("species", some "New")])])
      (pyStrip "7") = some (get_best_tax_label [("species", some "New")]) :=
  claim_C6 [("7", [("species", some "Old")])] [] "7" [("species", some "New")]
    (by decide) (by decide)

/-- Claim C7, counterexample: the genus rank has two aliases populated with
different non-empty values, yet the selector returns neither, because the
species rank outranks genus. -/
theorem claim_C7_counterexample :
    usableValue (rowGet rowC7 "genus") = some "Homo" ∧
    usableValue (rowGet rowC7 "genus_name") = some "Homo2" ∧
    get_best_tax_label rowC7 ≠ "Homo" := by decide

/-- Claim C7, amended: when the selector reaches a rank (no earlier rank in
priority order yields a usable value), the first usable alias in that
rank's declared list supplies the label, irrespective of later aliases. -/
theorem claim_C7_amended (row : Row) (rbefore : List String) (rank : String)
    (rafter : List String) (pre : List String) (a : String) (post : List String) (v : String)
    (hranks : RANK_PRIORITY = rbefore ++ rank :: rafter)
    (hbefore : ∀ r ∈ rbefore, bestInAliases row (aliasesFor r) = none)
    (halias : aliasesFor rank = pre ++ a :: post)
    (hpre : ∀ b ∈ pre, usableValue (rowGet row b) = none)
    (ha : usableValue (rowGet row a) = some v) :
    get_best_tax_label row = v := by
  unfold get_best_tax_label
  rw [hranks, bestOverRanks_append_of_none row rbefore _ hbefore, bestOverRanks_cons, halias,
    bestInAliases_first_usable row pre a post v hpre ha]
  rfl

/-- Witness for the amended C7: only the two genus aliases are populated
and the first one wins, trimmed. -/
theorem claim_C7_amended_witness : get_best_tax_label rowC7W = "Homo" :=
  claim_C7_amended rowC7W ["subspecies", "species", "species subgroup", "species group"]
    "genus" ["family", "order", "class", "phylum", "clade", "superkingdom", "kingdom", "domain"]
    [] "genus" ["genus_name"] "Homo"
    (by decide) (by decide) (by decide) (by decide) (by decide)

/-- Claim C8, counterexample: with two columns differing only by case and
whitespace, the accessor resolves to the later occurrence, not the first. -/
theorem claim_C8_counterexample :
    rowGet rowC8 "species" = some (some "Beta") ∧
    rowGet rowC8 "species" ≠ some (some "Alpha") := by decide

/-- Folding the accessor index over names that never match leaves the
accumulator unchanged. -/
theorem accessorKey_foldl_no_match (ks : List String) (q : String) (acc : Option String)
    (h : ∀ k ∈ ks, normKey k ≠ normKey q) :
    ks.foldl (fun acc k => if normKey k = normKey q then some k else acc) acc = acc := by
  induction ks generalizing acc with
  | nil => rfl
  | cons c cs ih =>
    rw [List.foldl_cons, if_neg (h c (by simp))]
    exact ih acc (fun k hk => h k (by simp [hk]))

/-- The accessor index maps a normalized name to the last original key
whose normalization matches. -/
theorem accessorKey_last (pre : List String) (k : String) (post : List String) (q : String)
    (hmatch : normKey k = normKey q)
    (hlast : ∀ k' ∈ post, normKey k' ≠ normKey q) :
    accessorKey (pre ++ k :: post) q = some k := by
  unfold accessorKey
  rw [List.foldl_append, List.foldl_cons, if_pos hmatch]
  exact accessorKey_foldl_no_match post q (some k) hlast

theorem rowValue_cons (a : String × Cell) (row : Row) (k : String) :
    rowValue (a :: row) k = if a.1 = k then some a.2 else rowValue row k := by
  by_cases h : a.1 = k
  · rw [if_pos h]
    unfold rowValue
    rw [List.find?_cons_of_pos _ (by simp [h])]
    rfl
  · rw [if_neg h]
    unfold rowValue
    rw [List.find?_cons_of_neg _ (by simp [h])]

/-- Looking a key up in a row whose earlier columns never carry it yields
the middle pair's value. -/
theorem rowValue_middle (pre : Row) (p : String × Cell) (post : Row)
    (hpre : ∀ p' ∈ pre, ¬ p'.1 = p.1) :
    rowValue (pre ++ p :: post) p.1 = some p.2 := by
  induction pre with
  | nil => rw [List.nil_append, rowValue_cons, if_pos rfl]
  | cons a t ih =>
    have ha : ¬ a.1 = p.1 := hpre a (by simp)
    rw [List.cons_append, rowValue_cons, if_neg ha]
    exact ih (fun p' hp' => hpre p' (by simp [hp']))

/-- Claim C8, amended: on rows with duplicate column names differing only
by case or surrounding whitespace, the accessor applies one deterministic
rule uniformly — the lookup resolves to the last occurrence in the row's
column order. -/
theorem claim_C8_amended (row : Row) (q : String) (pre : Row) (p : String × Cell) (post : Row)
    (hrow : row = pre ++ p :: post)
    (hmatch : normKey p.1 = normKey q)
    (hlast : ∀ p' ∈ post, normKey p'.1 ≠ normKey q)
    (hnodup : (row.map Prod.fst).Nodup) :
    rowGet row q = some p.2 := by
  subst hrow
  have hkeys : (pre ++ p :: post).map Prod.fst =
      pre.map Prod.fst ++ p.1 :: post.map Prod.fst := by simp
  have hacc : accessorKey ((pre ++ p :: post).map Prod.fst) q = some p.1 := by
    rw [hkeys]
    refine accessorKey_last (pre.map Prod.fst) p.1 (post.map Prod.fst) q hmatch ?_
    intro k' hk'
    rcases List.mem_map.mp hk' with ⟨x, hx, hxk⟩
    rw [← hxk]
    exact hlast x hx
  have hpre : ∀ p' ∈ pre, ¬ p'.1 = p.1 := by
    rw [hkeys] at hnodup
    rcases List.nodup_append.mp hnodup with ⟨-, -, hdisj⟩
    intro p' hp' heq
    exact hdisj (heq ▸ List.mem_map_of_mem Prod.fst hp') (List.mem_cons_self _ _)
  unfold rowGet
  rw [hacc]
  exact rowValue_middle pre p post hpre

/-- Witness for the amended C8 on the duplicate-column row. -/
theorem claim_C8_amended_witness : rowGet rowC8 "species" = some (some "Beta") :=
  claim_C8_amended rowC8 "species" [("Species", some "Alpha")] (" species ", some "Beta") []
    (by decide) (by decide) (by decide) (by decide)

/-- Claim C9: translating the headers of a table none of whose tokens
strips to a digit string changes nothing, so a second translation pass
over an already-translated table is a no-op. -/
theorem claim_C9 (m : Dict) (cols : List String)
    (h : ∀ c ∈ cols, pyIsDigit (pyStrip c) = false) :
    translate_headers m cols = cols := by
  induction cols with
  | nil => rfl
  | cons c cs ih =>
    have hc : translateHeader m c = c := by simp [translateHeader, h c (by simp)]
    unfold translate_headers at *
    rw [List.map_cons, hc, ih (fun x hx => h x (by simp [hx]))]

/-- Witness for C9 on translated, non-numeric headers. -/
theorem claim_C9_witness :
    translate_headers [("5", "Bacteria")] ["Escherichia coli", "Unknown", "sample name"] =
      ["Escherichia coli", "Unknown", "sample name"] :=
  claim_C9 [("5", "Bacteria")] ["Escherichia coli", "Unknown", "sample name"] (by decide)

/-- Claim C10: a translated header is the map's label itself — the token's
own surrounding whitespace is discarded — and an untranslated token is
reproduced exactly as read. -/
theorem claim_C10 (m : Dict) (col : String) :
    (∀ v, pyIsDigit (pyStrip col) = true → dictLookup m (pyStrip col) = some v →
      translateHeader m col = v) ∧
    (¬ (pyIsDigit (pyStrip col) = true ∧ (dictLookup m (pyStrip col)).isSome = true) →
      translateHeader m col = col) := by
  constructor
  · intro v h1 hv
    simp [translateHeader, h1, hv]
  · intro hn
    have hcond : ¬ (pyIsDigit (pyStrip col) && (dictLookup m (pyStrip col)).isSome) = true := by
      simpa [Bool.and_eq_true] using hn
    simp [translateHeader, hcond]

/-- Witness for C10: a padded numeric token becomes the bare label; a
padded word keeps its padding. -/
theorem claim_C10_witness :
    translateHeader mC10 " 561530 " = "Escherichia coli" ∧
    translateHeader mC10 " sample " = " sample " :=
  ⟨(claim_C10 mC10 " 561530 ").1 "Escherichia coli" (by decide) (by decide),
   (claim_C10 mC10 " sample ").2 (by decide)⟩

end TranslateTaxids
